import Mathlib

/-!
Verification of the Notifly notification-center engine (notifly.h, the
id_manager-based engine revision) and its C adapter layers (c_notifly.cpp and
notifly_c.cpp), as a shallow embedding in Lean.

The embedding models:
* `stringType` / the fold that builds a type-signature string from an argument
  type list;
* `id_manager` (released-id stack plus monotonic counter);
* the `notifly` registry state: `m_observers` (topic -> observer list),
  `m_observers_by_id` (id -> topic; the stored list iterator is abstracted by
  the observer id, which locates the same node because live ids are unique),
  and `m_id_manager`;
* the operations `add_observer`, `remove_observer`, `remove_all_observers`,
  `post_notification` (callback invocations are modelled as an emitted event
  list, since the engine treats callbacks as opaque closures), and the C
  adapter entry points.

`std::unordered_map` is modelled as an association list with the usual
lookup/insert/erase operations; `std::set` as a duplicate-free list.
-/

namespace Notifly

/-! ### Association-list model of std::unordered_map -/

/-- Lookup by key; returns the value of the first matching entry, like
`std::unordered_map::at` / `find` (keys are unique in a real map). -/
def lookupA {β : Type} : List (Int × β) → Int → Option β
  | [], _ => none
  | (k, v) :: rest, a => if a = k then some v else lookupA rest a

/-- Insert-or-assign: replaces the value of the first entry with this key, or
appends a new entry; models `m[k] = v`. -/
def insertA {β : Type} : List (Int × β) → Int → β → List (Int × β)
  | [], k, v => [(k, v)]
  | (k2, v2) :: rest, k, v =>
      if k = k2 then (k, v) :: rest else (k2, v2) :: insertA rest k v

/-- Erase the first entry with this key; models `m.erase(k)`. -/
def eraseA {β : Type} : List (Int × β) → Int → List (Int × β)
  | [], _ => []
  | (k2, v2) :: rest, k => if k = k2 then rest else (k2, v2) :: eraseA rest k

/-- The key list of an association list. -/
def keysA {β : Type} (l : List (Int × β)) : List Int := l.map Prod.fst

theorem lookupA_insertA_self {β : Type} (l : List (Int × β)) (k : Int) (v : β) :
    lookupA (insertA l k v) k = some v := by
  induction l with
  | nil => simp [insertA, lookupA]
  | cons p rest ih =>
    obtain ⟨k2, v2⟩ := p
    by_cases h : k = k2
    · simp [insertA, lookupA, h]
    · simp [insertA, lookupA, h, ih]

theorem lookupA_insertA_ne {β : Type} (l : List (Int × β)) (k a : Int) (v : β)
    (h : a ≠ k) : lookupA (insertA l k v) a = lookupA l a := by
  induction l with
  | nil => simp [insertA, lookupA, h]
  | cons p rest ih =>
    obtain ⟨k2, v2⟩ := p
    by_cases h2 : k = k2
    · subst h2
      simp [insertA, lookupA, h]
    · by_cases h3 : a = k2
      · simp [insertA, lookupA, h2, h3]
      · simp [insertA, lookupA, h2, h3, ih]

theorem lookupA_eraseA_ne {β : Type} (l : List (Int × β)) (k a : Int)
    (h : a ≠ k) : lookupA (eraseA l k) a = lookupA l a := by
  induction l with
  | nil => simp [eraseA]
  | cons p rest ih =>
    obtain ⟨k2, v2⟩ := p
    by_cases h2 : k = k2
    · subst h2
      simp [eraseA, lookupA, h]
    · by_cases h3 : a = k2
      · simp [eraseA, lookupA, h2, h3]
      · simp [eraseA, lookupA, h2, h3, ih]

theorem mem_keys_of_lookupA_isSome {β : Type} (l : List (Int × β)) (a : Int)
    (h : (lookupA l a).isSome) : a ∈ keysA l := by
  induction l with
  | nil => simp [lookupA] at h
  | cons p rest ih =>
    obtain ⟨k2, v2⟩ := p
    by_cases h2 : a = k2
    · simp [keysA, h2]
    · simp [lookupA, h2] at h
      simpa [keysA] using Or.inr (ih h)

theorem lookupA_eq_none_of_not_mem_keys {β : Type} (l : List (Int × β)) (a : Int)
    (h : a ∉ keysA l) : lookupA l a = none := by
  induction l with
  | nil => rfl
  | cons p rest ih =>
    obtain ⟨k2, v2⟩ := p
    simp [keysA] at h
    simp [lookupA, h.1, ih (by simpa [keysA] using h.2)]

theorem keysA_insertA {β : Type} (l : List (Int × β)) (k : Int) (v : β) :
    keysA (insertA l k v) = if k ∈ keysA l then keysA l else keysA l ++ [k] := by
  induction l with
  | nil => simp [insertA, keysA]
  | cons p rest ih =>
    obtain ⟨k2, v2⟩ := p
    by_cases h : k = k2
    · simp [insertA, keysA, h]
    · by_cases h2 : k ∈ List.map Prod.fst rest
      · simp only [keysA, List.map_cons] at ih ⊢
        simp [insertA, h, h2, Ne.symm h, ih]
      · simp only [keysA, List.map_cons] at ih ⊢
        simp [insertA, h, h2, Ne.symm h, ih]

theorem keysA_eraseA_sublist {β : Type} (l : List (Int × β)) (k : Int) :
    (keysA (eraseA l k)).Sublist (keysA l) := by
  induction l with
  | nil => simp [eraseA, keysA]
  | cons p rest ih =>
    obtain ⟨k2, v2⟩ := p
    by_cases h : k = k2
    · simp only [eraseA, if_pos h]
      exact (List.sublist_cons_self _ _)
    · simp only [eraseA, if_neg h, keysA, List.map_cons]
      exact List.Sublist.cons₂ _ ih

theorem keysA_nodup_insertA {β : Type} (l : List (Int × β)) (k : Int) (v : β)
    (h : (keysA l).Nodup) : (keysA (insertA l k v)).Nodup := by
  rw [keysA_insertA]
  by_cases h2 : k ∈ keysA l
  · simpa [h2] using h
  · simp only [h2, if_false]
    simpa [List.nodup_append] using ⟨h, h2⟩

theorem keysA_nodup_eraseA {β : Type} (l : List (Int × β)) (k : Int)
    (h : (keysA l).Nodup) : (keysA (eraseA l k)).Nodup :=
  (keysA_eraseA_sublist l k).nodup h

theorem lookupA_eraseA_self {β : Type} (l : List (Int × β)) (k : Int)
    (h : (keysA l).Nodup) : lookupA (eraseA l k) k = none := by
  induction l with
  | nil => rfl
  | cons p rest ih =>
    obtain ⟨k2, v2⟩ := p
    simp [keysA] at h
    by_cases h2 : k = k2
    · subst h2
      simp only [eraseA, if_pos rfl]
      exact lookupA_eq_none_of_not_mem_keys rest k (by simpa [keysA] using h.1)
    · simp [eraseA, lookupA, h2, ih h.2]

theorem mem_insertA {β : Type} (l : List (Int × β)) (k : Int) (v : β)
    (p : Int × β) (h : p ∈ insertA l k v) : p = (k, v) ∨ p ∈ l := by
  induction l with
  | nil => simpa [insertA] using h
  | cons q rest ih =>
    obtain ⟨k2, v2⟩ := q
    by_cases h2 : k = k2
    · simp only [insertA, if_pos h2, List.mem_cons] at h
      rcases h with h | h
      · exact Or.inl h
      · exact Or.inr (List.mem_cons_of_mem _ h)
    · simp only [insertA, if_neg h2, List.mem_cons] at h
      rcases h with h | h
      · exact Or.inr (by simp [h])
      · rcases ih h with h3 | h3
        · exact Or.inl h3
        · exact Or.inr (List.mem_cons_of_mem _ h3)

theorem mem_eraseA {β : Type} (l : List (Int × β)) (k : Int)
    (p : Int × β) (h : p ∈ eraseA l k) : p ∈ l := by
  induction l with
  | nil => simp [eraseA] at h
  | cons q rest ih =>
    obtain ⟨k2, v2⟩ := q
    by_cases h2 : k = k2
    · simp only [eraseA, if_pos h2] at h
      exact List.mem_cons_of_mem _ h
    · simp only [eraseA, if_neg h2, List.mem_cons] at h
      rcases h with h | h
      · simp [h]
      · exact List.mem_cons_of_mem _ (ih h)

/-! ### Type signatures (`stringType` and the fold over `Args...`) -/

/-- The value/lvalue-reference/rvalue-reference qualifier of a C++ argument
type, as distinguished by `stringType<T>()`. -/
inductive CppQual : Type
  | value
  | lref
  | rref
deriving DecidableEq

/-- A C++ argument type as seen by `stringType<T>()`: a reference qualifier
plus the `std::type_index(typeid(T)).name()` string. -/
structure CppType : Type where
  qual : CppQual
  name : String
deriving DecidableEq

/-- `notifly::stringType<T>()`: prefixes the type-index name with a marker for
the reference qualifier. -/
def stringType (t : CppType) : String :=
  match t.qual with
  | CppQual.lref => "(Qxt&)" ++ t.name
  | CppQual.rref => "(Qxt&&)" ++ t.name
  | CppQual.value => "(Qxt)" ++ t.name

/-- The fold `(..., (types += stringType<Args>()))` that builds the signature
string of an argument type list. -/
def signatureOf (ts : List CppType) : String :=
  ts.foldl (fun acc t => acc ++ stringType t) ""

/-- The `notifly_result` enum of the engine. The `timeout` member is used by
`post_and_wait` (see below). -/
inductive notifly_result : Type
  | success
  | observer_not_found
  | notification_not_found
  | payload_type_not_match
  | no_more_observer_ids
  | timeout
deriving DecidableEq

/-- `static_cast<int>` of a `notifly_result`. The first five values are the
enum initializers 0 .. -4 from the source. The numeric value of `timeout` is
modelled (the enum revision containing it is not among the sources); it is
assigned the next unused negative code. No theorem depends on its value. -/
def notifly_result.toInt : notifly_result → Int
  | notifly_result.success => 0
  | notifly_result.observer_not_found => -1
  | notifly_result.notification_not_found => -2
  | notifly_result.payload_type_not_match => -3
  | notifly_result.no_more_observer_ids => -4
  | notifly_result.timeout => -6

/-! ### id_manager -/

/-- `std::numeric_limits<int>::max()`. -/
def intMax : Int := 2147483647

/-- `std::set<int>::insert`. -/
def insertSet (i : Int) (l : List Int) : List Int :=
  if i ∈ l then l else i :: l

/-- `std::set<int>::erase`. -/
def removeSet (i : Int) (l : List Int) : List Int :=
  l.filter (fun j => j ≠ i)

/-- The `id_manager` component: the set of issued ids, the stack of released
ids (head of the list is the stack top), and the next monotonic id. -/
structure id_manager : Type where
  m_ids : List Int
  m_released_ids : List Int
  m_next_id : Int
deriving DecidableEq

/-- The initial `id_manager` (`m_next_id = 1`, both containers empty). -/
def id_manager.init : id_manager := ⟨[], [], 1⟩

/-- `id_manager::get_unique_id`: pop the released-id stack if non-empty;
otherwise issue `m_next_id` unless it has reached `intMax`, in which case
return -1 without changing any state. -/
def id_manager.get_unique_id (m : id_manager) : Int × id_manager :=
  match m.m_released_ids with
  | id :: rest =>
      (id, { m with m_released_ids := rest, m_ids := insertSet id m.m_ids })
  | [] =>
      if m.m_next_id = intMax then (-1, m)
      else (m.m_next_id,
            { m with m_ids := insertSet m.m_next_id m.m_ids,
                     m_next_id := m.m_next_id + 1 })

/-- `id_manager::release_id`: erase from the issued set and push onto the
released stack. -/
def id_manager.release_id (m : id_manager) (id : Int) : id_manager :=
  { m with m_ids := removeSet id m.m_ids,
           m_released_ids := id :: m.m_released_ids }

/-! ### The notifly registry -/

/-- A registered observer. The callback closure built in `add_observer` is
opaque to the engine; it is represented by the token `m_callback` taken from
the caller, so that dispatch events can name which callback ran. -/
structure notification_observer : Type where
  m_id : Int
  m_notification : Int
  m_types : String
  m_callback : Nat
deriving DecidableEq

/-- The ids of a topic's observer list. -/
def idsOf (l : List notification_observer) : List Int :=
  l.map (fun o => o.m_id)

/-- Erase the list node a saved iterator points to. The iterator stored in
`m_observers_by_id` designates one specific node; since live observer ids are
unique (proved below), that node is the unique element carrying this id, so
erasure by iterator is erasure of the first element with the id. -/
def eraseObsId : List notification_observer → Int → List notification_observer
  | [], _ => []
  | o :: rest, i => if o.m_id = i then rest else o :: eraseObsId rest i

/-- The engine state: `m_observers` maps a notification topic to its observer
list (front of the list = oldest observer); `m_observers_by_id` maps a live
observer id to its topic (the saved list iterator is recovered from the id);
`m_id_manager` is the allocator. -/
structure notifly : Type where
  m_observers : List (Int × List notification_observer)
  m_observers_by_id : List (Int × Int)
  m_id_manager : id_manager
deriving DecidableEq

/-- A freshly constructed notification center. -/
def notifly.init : notifly := ⟨[], [], id_manager.init⟩

/-- The `front().m_types == types` check. The source calls `front()` only
after `contains` succeeded; on an empty list `front()` would be undefined
behaviour, which never happens because topics present in the map always hold
a non-empty list (proved below); the `[]` case here is arbitrary. -/
def typeGateOk (lst : List notification_observer) (types : String) : Bool :=
  match lst with
  | [] => true
  | o :: _ => o.m_types == types

/-- The `if(m_observers.contains(a_notification))` block of `add_observer`:
true when the topic is new or its pinned signature equals `types`. -/
def addGate (s : notifly) (a_notification : Int) (types : String) : Bool :=
  match lookupA s.m_observers a_notification with
  | some lst => typeGateOk lst types
  | none => true

/-- `notifly::add_observer`: check the topic's pinned signature against the
callback's signature, allocate an id, append the observer at the tail of the
topic's list, and index it by id. Returns the id or a negative error code. -/
def notifly.add_observer (s : notifly) (a_notification : Int) (types : String)
    (cb : Nat) : Int × notifly :=
  if !addGate s a_notification types then
    (notifly_result.toInt notifly_result.payload_type_not_match, s)
  else
    let alloc := s.m_id_manager.get_unique_id
    if alloc.1 = -1 then
      (notifly_result.toInt notifly_result.no_more_observer_ids,
       { s with m_id_manager := alloc.2 })
    else
      let obs : notification_observer := ⟨alloc.1, a_notification, types, cb⟩
      let oldList := (lookupA s.m_observers a_notification).getD []
      (alloc.1,
       { s with
           m_id_manager := alloc.2,
           m_observers := insertA s.m_observers a_notification (oldList ++ [obs]),
           m_observers_by_id := insertA s.m_observers_by_id alloc.1 a_notification })

/-- `notifly::remove_observer`: look the id up in the by-id index (absent ->
`observer_not_found`), erase the saved iterator's node from its topic's list,
drop the topic entry if the list became empty, erase the by-id entry, and
release the id. -/
def notifly.remove_observer (s : notifly) (a_observer : Int) : Int × notifly :=
  match lookupA s.m_observers_by_id a_observer with
  | none => (notifly_result.toInt notifly_result.observer_not_found, s)
  | some topic =>
      let s1 :=
        match lookupA s.m_observers topic with
        | none => s
        | some lst =>
            let lst2 := eraseObsId lst a_observer
            if lst2.isEmpty then
              { s with m_observers := eraseA s.m_observers topic }
            else
              { s with m_observers := insertA s.m_observers topic lst2 }
      (notifly_result.toInt notifly_result.success,
       { s1 with
           m_observers_by_id := eraseA s1.m_observers_by_id a_observer,
           m_id_manager := s1.m_id_manager.release_id a_observer })

/-- `notifly::remove_all_observers`: absent topic -> 0 with no change;
otherwise erase every observer of the topic from the by-id index, release
every id, delete the topic entry, and return the number removed. -/
def notifly.remove_all_observers (s : notifly) (a_notification : Int) :
    Int × notifly :=
  match lookupA s.m_observers a_notification with
  | none => (0, s)
  | some lst =>
      ((lst.length : Int),
       { s with
           m_observers := eraseA s.m_observers a_notification,
           m_observers_by_id :=
             lst.foldl (fun m o => eraseA m o.m_id) s.m_observers_by_id,
           m_id_manager :=
             lst.foldl (fun m o => m.release_id o.m_id) s.m_id_manager })

/-- One callback invocation: the observer whose callback ran (carrying its
callback token) and the payload value it received. For a synchronous post the
list is the in-order sequence of inline invocations; for an asynchronous post
it is the in-order sequence of tasks submitted to the thread pool. -/
abbrev dispatch_event : Type := notification_observer × Nat

/-- `notifly::post_notification`: absent topic -> `notification_not_found`;
signature mismatch against the first observer -> `payload_type_not_match`
(zero callbacks run in both cases); otherwise every observer's callback is
invoked front-to-back with the same payload and the list length is returned.
The registry state is returned unchanged: the source's function body performs
no mutation of `m_observers`, `m_observers_by_id`, or `m_id_manager`. -/
def notifly.post_notification (s : notifly) (a_notification : Int)
    (types : String) (payload : Nat) (a_async : Bool) :
    Int × List dispatch_event × notifly :=
  match lookupA s.m_observers a_notification with
  | none => (notifly_result.toInt notifly_result.notification_not_found, [], s)
  | some lst =>
      if !typeGateOk lst types then
        (notifly_result.toInt notifly_result.payload_type_not_match, [], s)
      else
        ((lst.length : Int), lst.map (fun o => (o, payload)), s)

/-- `notifly::post_notification_async` of the current engine revision: the
asynchronous posting path, with validation identical to `post_notification`
(the revision in `src` exposes it as the `a_async = true` mode of
`post_notification`). -/
def notifly.post_notification_async (s : notifly) (a_notification : Int)
    (types : String) (payload : Nat) : Int × List dispatch_event × notifly :=
  s.post_notification a_notification types payload true

/-! ### Helper lemmas on add_observer -/

theorem add_observer_success (s : notifly) (n : Int) (types : String) (cb : Nat)
    (i : Int) (s2 : notifly) (h : s.add_observer n types cb = (i, s2))
    (hi : 0 < i) :
    i = (s.m_id_manager.get_unique_id).1 ∧
    s2 = { s with
             m_id_manager := (s.m_id_manager.get_unique_id).2,
             m_observers := insertA s.m_observers n
               (((lookupA s.m_observers n).getD []) ++ [⟨i, n, types, cb⟩]),
             m_observers_by_id := insertA s.m_observers_by_id i n } := by
  unfold notifly.add_observer at h
  by_cases hgate : addGate s n types
  · rw [if_neg (by simp [hgate])] at h
    by_cases halloc : (s.m_id_manager.get_unique_id).1 = -1
    · rw [if_pos halloc] at h
      injection h with h1 h2
      exfalso
      simp [notifly_result.toInt] at h1
      omega
    · rw [if_neg halloc] at h
      injection h with h1 h2
      refine ⟨h1.symm, ?_⟩
      rw [← h2, ← h1]
  · rw [if_pos (by simp [hgate])] at h
    injection h with h1 h2
    exfalso
    simp [notifly_result.toInt] at h1
    omega

/-! ### Dispatch validation (claims C1, C2, C3) -/

/-- Claim C1: `post_notification` first validates: if the topic has no
registered observers it returns `notification_not_found`, and if the computed
signature of the arguments differs from the topic's stored signature it
returns `payload_type_not_match`; in both failure cases the dispatch event
list is empty (zero callbacks are invoked, synchronously or asynchronously)
and the registry state is unchanged. -/
theorem post_notification_type_gate (s : notifly) (n : Int) (types : String)
    (payload : Nat) (a_async : Bool) :
    (lookupA s.m_observers n = none →
      s.post_notification n types payload a_async =
        (notifly_result.toInt notifly_result.notification_not_found, [], s)) ∧
    (∀ lst o, lookupA s.m_observers n = some lst → lst.head? = some o →
      o.m_types ≠ types →
      s.post_notification n types payload a_async =
        (notifly_result.toInt notifly_result.payload_type_not_match, [], s)) := by
  constructor
  · intro h
    simp [notifly.post_notification, h]
  · intro lst o hl ho ht
    cases lst with
    | nil => simp at ho
    | cons a rest =>
      simp only [List.head?_cons, Option.some.injEq] at ho
      subst ho
      simp [notifly.post_notification, hl, typeGateOk, ht]

/-- Witness for C1 at concrete inputs: posting on an empty center fails with
`notification_not_found`; posting a mismatched signature on a topic holding
one observer fails with `payload_type_not_match`. -/
theorem post_notification_type_gate_witness :
    notifly.init.post_notification 1 "(Qxt)i" 0 false =
      (notifly_result.toInt notifly_result.notification_not_found, [],
        notifly.init) ∧
    (notifly.init.add_observer 1 "(Qxt)i" 7).2.post_notification 1 "(Qxt)d" 0
        false =
      (notifly_result.toInt notifly_result.payload_type_not_match, [],
        (notifly.init.add_observer 1 "(Qxt)i" 7).2) :=
  ⟨(post_notification_type_gate notifly.init 1 "(Qxt)i" 0 false).1 (by decide),
   (post_notification_type_gate _ 1 "(Qxt)d" 0 false).2
     [⟨1, 1, "(Qxt)i", 7⟩] ⟨1, 1, "(Qxt)i", 7⟩ (by decide) (by decide)
     (by decide)⟩

/-- Claim C2: when the stored signature matches, a synchronous (or
asynchronous) `post_notification` produces exactly one dispatch event per
observer of the topic, in list order front-to-back, each carrying the same
payload, and returns the length of the list; moreover a matching
`add_observer` appends the new observer at the tail of that list, so list
order is registration order. -/
theorem post_notification_success_dispatch (s : notifly) (n : Int)
    (types : String) (payload : Nat) (a_async : Bool)
    (lst : List notification_observer) (o : notification_observer)
    (hl : lookupA s.m_observers n = some lst) (ho : lst.head? = some o)
    (ht : o.m_types = types) :
    s.post_notification n types payload a_async =
      ((lst.length : Int), lst.map (fun ob => (ob, payload)), s) ∧
    ∀ cb i s2, s.add_observer n types cb = (i, s2) → 0 < i →
      lookupA s2.m_observers n = some (lst ++ [⟨i, n, types, cb⟩]) := by
  cases lst with
  | nil => simp at ho
  | cons a rest =>
  simp only [List.head?_cons, Option.some.injEq] at ho
  subst ho
  constructor
  · simp [notifly.post_notification, hl, typeGateOk, ht]
  · intro cb i s2 hadd hi
    obtain ⟨h1, h2⟩ := add_observer_success s n types cb i s2 hadd hi
    subst h2
    simp [hl, lookupA_insertA_self]

/-- Witness for C2: one observer on topic 1; a matching post dispatches to it
once and returns 1; a second matching add lands at the tail. -/
theorem post_notification_success_dispatch_witness :
    (notifly.init.add_observer 1 "(Qxt)i" 7).2.post_notification 1 "(Qxt)i" 5
        false =
      (1, [(⟨1, 1, "(Qxt)i", 7⟩, 5)], (notifly.init.add_observer 1 "(Qxt)i" 7).2) ∧
    lookupA ((notifly.init.add_observer 1 "(Qxt)i" 7).2.add_observer 1
        "(Qxt)i" 9).2.m_observers 1 =
      some [⟨1, 1, "(Qxt)i", 7⟩, ⟨2, 1, "(Qxt)i", 9⟩] := by
  have h := post_notification_success_dispatch
    (notifly.init.add_observer 1 "(Qxt)i" 7).2 1 "(Qxt)i" 5 false
    [⟨1, 1, "(Qxt)i", 7⟩] ⟨1, 1, "(Qxt)i", 7⟩ (by decide) (by decide) (by decide)
  refine ⟨h.1, ?_⟩
  have h2 := h.2 9 2
    ((notifly.init.add_observer 1 "(Qxt)i" 7).2.add_observer 1 "(Qxt)i" 9).2
    (by decide) (by decide)
  exact h2

/-- Claim C3: once a topic has at least one observer, an `add_observer` whose
signature differs from the stored one fails with `payload_type_not_match` and
returns the state unchanged: nothing is registered, no id is consumed, the
observer list and the pinned signature stay as they were. -/
theorem add_observer_signature_pinning (s : notifly) (n : Int) (types : String)
    (cb : Nat) (lst : List notification_observer) (o : notification_observer)
    (hl : lookupA s.m_observers n = some lst) (ho : lst.head? = some o)
    (ht : o.m_types ≠ types) :
    s.add_observer n types cb =
      (notifly_result.toInt notifly_result.payload_type_not_match, s) := by
  cases lst with
  | nil => simp at ho
  | cons a rest =>
  simp only [List.head?_cons, Option.some.injEq] at ho
  subst ho
  simp [notifly.add_observer, addGate, hl, typeGateOk, ht]

/-- Witness for C3: a second observer with a different signature on topic 1 is
rejected with `payload_type_not_match` and the state is untouched. -/
theorem add_observer_signature_pinning_witness :
    (notifly.init.add_observer 1 "(Qxt)i" 7).2.add_observer 1 "(Qxt)d" 9 =
      (notifly_result.toInt notifly_result.payload_type_not_match,
        (notifly.init.add_observer 1 "(Qxt)i" 7).2) :=
  add_observer_signature_pinning _ 1 "(Qxt)d" 9
    [⟨1, 1, "(Qxt)i", 7⟩] ⟨1, 1, "(Qxt)i", 7⟩ (by decide) (by decide) (by decide)

/-! ### More association-list and fold lemmas -/

theorem lookupA_isSome_of_mem_keys {β : Type} (l : List (Int × β)) (a : Int)
    (h : a ∈ keysA l) : (lookupA l a).isSome := by
  induction l with
  | nil => simp [keysA] at h
  | cons p rest ih =>
    obtain ⟨k2, v2⟩ := p
    by_cases h2 : a = k2
    · simp [lookupA, h2]
    · simp [keysA, h2] at h
      simpa [lookupA, h2, keysA] using ih (by simpa [keysA] using h)

theorem lookupA_eraseA_none {β : Type} (l : List (Int × β)) (k a : Int)
    (h : lookupA l a = none) : lookupA (eraseA l k) a = none := by
  apply lookupA_eq_none_of_not_mem_keys
  intro hmem
  have h2 := lookupA_isSome_of_mem_keys l a ((keysA_eraseA_sublist l k).subset hmem)
  rw [h] at h2
  simp at h2

theorem lookupA_foldl_eraseA_none (lst : List notification_observer)
    (m0 : List (Int × Int)) (a : Int) (h : lookupA m0 a = none) :
    lookupA (lst.foldl (fun m o => eraseA m o.m_id) m0) a = none := by
  induction lst generalizing m0 with
  | nil => simpa using h
  | cons o rest ih => exact ih (eraseA m0 o.m_id) (lookupA_eraseA_none m0 o.m_id a h)

theorem keysA_nodup_foldl_eraseA (lst : List notification_observer)
    (m0 : List (Int × Int)) (h : (keysA m0).Nodup) :
    (keysA (lst.foldl (fun m o => eraseA m o.m_id) m0)).Nodup := by
  induction lst generalizing m0 with
  | nil => simpa using h
  | cons o rest ih => exact ih (eraseA m0 o.m_id) (keysA_nodup_eraseA m0 o.m_id h)

theorem lookupA_foldl_eraseA_of_mem (lst : List notification_observer)
    (m0 : List (Int × Int)) (a : Int) (hnd : (keysA m0).Nodup)
    (hmem : a ∈ idsOf lst) :
    lookupA (lst.foldl (fun m o => eraseA m o.m_id) m0) a = none := by
  induction lst generalizing m0 with
  | nil => simp [idsOf] at hmem
  | cons o rest ih =>
    by_cases h2 : a = o.m_id
    · rw [h2]
      exact lookupA_foldl_eraseA_none rest _ o.m_id
        (lookupA_eraseA_self m0 o.m_id hnd)
    · simp only [idsOf, List.map_cons, List.mem_cons] at hmem
      rcases hmem with hmem | hmem
      · exact absurd hmem h2
      · exact ih (eraseA m0 o.m_id) (keysA_nodup_eraseA m0 o.m_id hnd)
          (by simpa [idsOf] using hmem)

theorem foldl_release_released (lst : List notification_observer)
    (m0 : id_manager) :
    (lst.foldl (fun m o => m.release_id o.m_id) m0).m_released_ids =
      (idsOf lst).reverse ++ m0.m_released_ids := by
  induction lst generalizing m0 with
  | nil => simp [idsOf]
  | cons o rest ih =>
    simp only [List.foldl_cons, idsOf, List.map_cons, List.reverse_cons,
      List.append_assoc]
    rw [ih (m0.release_id o.m_id)]
    simp [id_manager.release_id, idsOf]

theorem foldl_release_next_id (lst : List notification_observer)
    (m0 : id_manager) :
    (lst.foldl (fun m o => m.release_id o.m_id) m0).m_next_id = m0.m_next_id := by
  induction lst generalizing m0 with
  | nil => rfl
  | cons o rest ih => exact ih (m0.release_id o.m_id)

theorem remove_observer_by_id (s : notifly) (i t : Int)
    (h : lookupA s.m_observers_by_id i = some t) :
    (s.remove_observer i).1 = notifly_result.toInt notifly_result.success ∧
    (s.remove_observer i).2.m_observers_by_id = eraseA s.m_observers_by_id i ∧
    (s.remove_observer i).2.m_id_manager = s.m_id_manager.release_id i := by
  unfold notifly.remove_observer
  rw [h]
  cases hlst : lookupA s.m_observers t with
  | none => simp [hlst]
  | some lst =>
    by_cases he : eraseObsId lst i = []
    · simp [hlst, he]
    · simp [hlst, he]

theorem remove_observer_not_found (s : notifly) (i : Int)
    (h : lookupA s.m_observers_by_id i = none) :
    s.remove_observer i =
      (notifly_result.toInt notifly_result.observer_not_found, s) := by
  simp [notifly.remove_observer, h]

/-! ### Round trip, remove_all, allocator (claims C6, C8, C9) -/

/-- Claim C6: an `add_observer` that returned id `i > 0`, followed by
`remove_observer(i)`, returns success (0); a second `remove_observer(i)` with
no intervening add returns `observer_not_found`. (The by-id index of a real
`std::unordered_map` has unique keys, here the hypothesis `hnd`.) -/
theorem remove_observer_round_trip (s : notifly) (n : Int) (types : String)
    (cb : Nat) (i : Int) (s1 : notifly)
    (hadd : s.add_observer n types cb = (i, s1)) (hi : 0 < i)
    (hnd : (keysA s.m_observers_by_id).Nodup) :
    (s1.remove_observer i).1 = notifly_result.toInt notifly_result.success ∧
    ((s1.remove_observer i).2.remove_observer i).1 =
      notifly_result.toInt notifly_result.observer_not_found := by
  obtain ⟨h1, h2⟩ := add_observer_success s n types cb i s1 hadd hi
  have hbyid : lookupA s1.m_observers_by_id i = some n := by
    rw [h2]
    exact lookupA_insertA_self s.m_observers_by_id i n
  obtain ⟨r1, r2, _r3⟩ := remove_observer_by_id s1 i n hbyid
  refine ⟨r1, ?_⟩
  have hnone : lookupA (s1.remove_observer i).2.m_observers_by_id i = none := by
    rw [r2, h2]
    exact lookupA_eraseA_self _ i (keysA_nodup_insertA s.m_observers_by_id i n hnd)
  rw [remove_observer_not_found (s1.remove_observer i).2 i hnone]

/-- Witness for C6 on a fresh center: add on topic 1 yields id 1; removing it
succeeds; removing it again reports `observer_not_found`. -/
theorem remove_observer_round_trip_witness :
    ((notifly.init.add_observer 1 "(Qxt)i" 7).2.remove_observer 1).1 =
      notifly_result.toInt notifly_result.success ∧
    (((notifly.init.add_observer 1 "(Qxt)i" 7).2.remove_observer 1).2.remove_observer
        1).1 = notifly_result.toInt notifly_result.observer_not_found :=
  remove_observer_round_trip notifly.init 1 "(Qxt)i" 7 1
    (notifly.init.add_observer 1 "(Qxt)i" 7).2 (by decide) (by decide) (by decide)

/-- Claim C8: `remove_all_observers` on an absent topic returns 0 and changes
nothing; on a present topic it returns the observer count, deletes the topic
entry, drops every one of its observers from the by-id index, and pushes every
observer id onto the allocator's released stack. -/
theorem remove_all_observers_spec (s : notifly) (n : Int) :
    (lookupA s.m_observers n = none → s.remove_all_observers n = (0, s)) ∧
    (∀ lst, lookupA s.m_observers n = some lst →
      (s.remove_all_observers n).1 = (lst.length : Int) ∧
      ((keysA s.m_observers).Nodup →
        lookupA (s.remove_all_observers n).2.m_observers n = none) ∧
      ((keysA s.m_observers_by_id).Nodup → ∀ o ∈ lst,
        lookupA (s.remove_all_observers n).2.m_observers_by_id o.m_id = none) ∧
      (∀ o ∈ lst,
        o.m_id ∈ (s.remove_all_observers n).2.m_id_manager.m_released_ids)) := by
  constructor
  · intro h
    simp [notifly.remove_all_observers, h]
  · intro lst hl
    refine ⟨by simp [notifly.remove_all_observers, hl], ?_, ?_, ?_⟩
    · intro hnd
      simp only [notifly.remove_all_observers, hl]
      exact lookupA_eraseA_self s.m_observers n hnd
    · intro hnd o ho
      simp only [notifly.remove_all_observers, hl]
      exact lookupA_foldl_eraseA_of_mem lst s.m_observers_by_id o.m_id hnd
        (by simp [idsOf]; exact ⟨o, ho, rfl⟩)
    · intro o ho
      simp only [notifly.remove_all_observers, hl, foldl_release_released]
      refine List.mem_append.2 (Or.inl ?_)
      simp [idsOf]
      exact ⟨o, ho, rfl⟩

/-- Witness for C8: absent topic on a fresh center returns (0, unchanged);
topic 1 with two observers is removed entirely, count 2, both ids released. -/
theorem remove_all_observers_spec_witness :
    notifly.init.remove_all_observers 1 = (0, notifly.init) ∧
    (((notifly.init.add_observer 1 "(Qxt)i" 7).2.add_observer 1 "(Qxt)i"
        8).2.remove_all_observers 1).1 = 2 ∧
    lookupA (((notifly.init.add_observer 1 "(Qxt)i" 7).2.add_observer 1 "(Qxt)i"
        8).2.remove_all_observers 1).2.m_observers 1 = none ∧
    lookupA (((notifly.init.add_observer 1 "(Qxt)i" 7).2.add_observer 1 "(Qxt)i"
        8).2.remove_all_observers 1).2.m_observers_by_id 1 = none ∧
    1 ∈ (((notifly.init.add_observer 1 "(Qxt)i" 7).2.add_observer 1 "(Qxt)i"
        8).2.remove_all_observers 1).2.m_id_manager.m_released_ids := by
  have h0 := (remove_all_observers_spec notifly.init 1).1 (by decide)
  have h := (remove_all_observers_spec
    ((notifly.init.add_observer 1 "(Qxt)i" 7).2.add_observer 1 "(Qxt)i" 8).2
    1).2 [⟨1, 1, "(Qxt)i", 7⟩, ⟨2, 1, "(Qxt)i", 8⟩] (by decide)
  exact ⟨h0, h.1, h.2.1 (by decide), h.2.2.1 (by decide) ⟨1, 1, "(Qxt)i", 7⟩
    (by decide), h.2.2.2 ⟨1, 1, "(Qxt)i", 7⟩ (by decide)⟩

/-- Claim C9: the allocator reuses the most-recently-released id first (stack
discipline); with an empty stack it issues the next monotonic integer, which
starts at 1; it reports exhaustion exactly when the stack is empty and the
monotonic counter has reached `std::numeric_limits<int>::max()`, and
`add_observer` then fails with `no_more_observer_ids`. -/
theorem id_manager_allocation_spec :
    (∀ m : id_manager, ∀ i rest, m.m_released_ids = i :: rest →
      m.get_unique_id =
        (i, { m with m_released_ids := rest, m_ids := insertSet i m.m_ids })) ∧
    (∀ m : id_manager, m.m_released_ids = [] → m.m_next_id ≠ intMax →
      m.get_unique_id =
        (m.m_next_id, { m with m_ids := insertSet m.m_next_id m.m_ids,
                               m_next_id := m.m_next_id + 1 })) ∧
    (id_manager.init.m_next_id = 1 ∧ id_manager.init.m_released_ids = []) ∧
    (∀ m : id_manager, (∀ j ∈ m.m_released_ids, 0 < j) → 1 ≤ m.m_next_id →
      ((m.get_unique_id).1 = -1 ↔
        m.m_released_ids = [] ∧ m.m_next_id = intMax)) ∧
    (∀ (s : notifly) (n : Int) (types : String) (cb : Nat),
      s.m_id_manager.m_released_ids = [] → s.m_id_manager.m_next_id = intMax →
      addGate s n types = true →
      s.add_observer n types cb =
        (notifly_result.toInt notifly_result.no_more_observer_ids, s)) := by
  refine ⟨?_, ?_, ⟨rfl, rfl⟩, ?_, ?_⟩
  · intro m i rest h
    simp [id_manager.get_unique_id, h]
  · intro m h hmax
    simp [id_manager.get_unique_id, h, hmax]
  · intro m hpos hone
    cases hrel : m.m_released_ids with
    | cons i rest =>
      simp only [id_manager.get_unique_id, hrel]
      constructor
      · intro h
        exfalso
        have := hpos i (by simp [hrel])
        omega
      · intro h
        exact absurd h.1 (by simp)
    | nil =>
      by_cases hmax : m.m_next_id = intMax
      · simp [id_manager.get_unique_id, hrel, hmax]
      · simp only [id_manager.get_unique_id, hrel, if_neg hmax]
        constructor
        · intro h
          omega
        · intro h
          exact absurd h.2 hmax
  · intro s n types cb hrel hmax hgate
    have halloc : s.m_id_manager.get_unique_id = (-1, s.m_id_manager) := by
      simp [id_manager.get_unique_id, hrel, hmax]
    simp [notifly.add_observer, hgate, halloc]

/-- Witness for C9: pop-preference on a concrete manager; monotonic issue on
a fresh manager; the initial counter; exhaustion iff at a full manager; and
`add_observer` reporting exhaustion on a center whose allocator is spent. -/
theorem id_manager_allocation_spec_witness :
    (id_manager.mk [5] [3, 7] 9).get_unique_id =
      (3, id_manager.mk [3, 5] [7] 9) ∧
    id_manager.init.get_unique_id = (1, id_manager.mk [1] [] 2) ∧
    (id_manager.init.m_next_id = 1 ∧ id_manager.init.m_released_ids = []) ∧
    ((id_manager.mk [] [] intMax).get_unique_id.1 = -1 ↔
      ([] : List Int) = [] ∧ intMax = intMax) ∧
    (notifly.mk [] [] (id_manager.mk [] [] intMax)).add_observer 1 "(Qxt)i" 7 =
      (notifly_result.toInt notifly_result.no_more_observer_ids,
        notifly.mk [] [] (id_manager.mk [] [] intMax)) := by
  refine ⟨?_, ?_, ?_, ?_, ?_⟩
  · exact id_manager_allocation_spec.1 (id_manager.mk [5] [3, 7] 9) 3 [7] rfl
  · exact id_manager_allocation_spec.2.1 id_manager.init rfl (by decide)
  · exact id_manager_allocation_spec.2.2.1
  · exact id_manager_allocation_spec.2.2.2.1 (id_manager.mk [] [] intMax)
      (by simp) (by decide)
  · exact id_manager_allocation_spec.2.2.2.2 (notifly.mk [] [] (id_manager.mk []
      [] intMax)) 1 "(Qxt)i" 7 rfl rfl rfl

/-! ### Live observers and permutation lemmas -/

/-- All observers across all topics. -/
def allObservers : List (Int × List notification_observer) →
    List notification_observer
  | [] => []
  | p :: rest => p.2 ++ allObservers rest

/-- The ids of all currently registered observers. -/
def liveIds (s : notifly) : List Int := idsOf (allObservers s.m_observers)

theorem allObservers_perm_of_lookup
    (m : List (Int × List notification_observer)) (t : Int)
    (lst : List notification_observer) (h : lookupA m t = some lst) :
    (allObservers m).Perm (lst ++ allObservers (eraseA m t)) := by
  induction m with
  | nil => simp [lookupA] at h
  | cons p rest ih =>
    obtain ⟨k, v⟩ := p
    by_cases hk : t = k
    · simp only [lookupA, if_pos hk] at h
      rw [eraseA, if_pos hk]
      simp only [allObservers]
      rw [show v = lst from by injection h]
    · simp only [lookupA, if_neg hk] at h
      rw [eraseA, if_neg hk]
      simp only [allObservers]
      have p1 := List.Perm.append_left v (ih h)
      have p2 := List.Perm.append_right (allObservers (eraseA rest t))
        (@List.perm_append_comm _ v lst)
      exact p1.trans (by simpa [List.append_assoc] using p2)

theorem allObservers_insertA_perm
    (m : List (Int × List notification_observer)) (t : Int)
    (lst nl : List notification_observer) (h : lookupA m t = some lst) :
    (allObservers (insertA m t nl)).Perm (nl ++ allObservers (eraseA m t)) := by
  induction m with
  | nil => simp [lookupA] at h
  | cons p rest ih =>
    obtain ⟨k, v⟩ := p
    by_cases hk : t = k
    · rw [insertA, if_pos hk, eraseA, if_pos hk]
      simp only [allObservers]
      exact List.Perm.refl _
    · simp only [lookupA, if_neg hk] at h
      rw [insertA, if_neg hk, eraseA, if_neg hk]
      simp only [allObservers]
      have p1 := List.Perm.append_left v (ih h)
      have p2 := List.Perm.append_right (allObservers (eraseA rest t))
        (@List.perm_append_comm _ v nl)
      exact p1.trans (by simpa [List.append_assoc] using p2)

theorem allObservers_insertA_new
    (m : List (Int × List notification_observer)) (t : Int)
    (nl : List notification_observer) (h : lookupA m t = none) :
    allObservers (insertA m t nl) = allObservers m ++ nl := by
  induction m with
  | nil => simp [insertA, allObservers]
  | cons p rest ih =>
    obtain ⟨k, v⟩ := p
    by_cases hk : t = k
    · simp [lookupA, hk] at h
    · simp only [lookupA, if_neg hk] at h
      rw [insertA, if_neg hk]
      simp only [allObservers]
      rw [ih h, List.append_assoc]

/-! ### eraseObsId lemmas -/

theorem eraseObsId_sublist (lst : List notification_observer) (i : Int) :
    (eraseObsId lst i).Sublist lst := by
  induction lst with
  | nil => simp [eraseObsId]
  | cons o rest ih =>
    by_cases h : o.m_id = i
    · simp only [eraseObsId, if_pos h]
      exact List.sublist_cons_self o rest
    · simp only [eraseObsId, if_neg h]
      exact ih.cons₂ o

theorem mem_ids_eraseObsId (lst : List notification_observer) (i j : Int)
    (hne : j ≠ i) (h : j ∈ idsOf lst) : j ∈ idsOf (eraseObsId lst i) := by
  induction lst with
  | nil => simp [idsOf] at h
  | cons o rest ih =>
    simp only [idsOf, List.map_cons, List.mem_cons] at h
    by_cases h2 : o.m_id = i
    · simp only [eraseObsId, if_pos h2]
      rcases h with h | h
      · exact absurd (h.trans h2) hne
      · simpa [idsOf] using h
    · simp only [eraseObsId, if_neg h2, idsOf, List.map_cons, List.mem_cons]
      rcases h with h | h
      · exact Or.inl h
      · exact Or.inr (by simpa [idsOf] using ih (by simpa [idsOf] using h))

theorem not_mem_ids_eraseObsId (lst : List notification_observer) (i : Int)
    (hnd : (idsOf lst).Nodup) : i ∉ idsOf (eraseObsId lst i) := by
  induction lst with
  | nil => simp [eraseObsId, idsOf]
  | cons o rest ih =>
    simp only [idsOf, List.map_cons, List.nodup_cons] at hnd
    by_cases h2 : o.m_id = i
    · simp only [eraseObsId, if_pos h2]
      intro hmem
      exact hnd.1 (h2 ▸ (by simpa [idsOf] using hmem))
    · simp only [eraseObsId, if_neg h2, idsOf, List.map_cons, List.mem_cons]
      push_neg
      exact ⟨fun h => h2 h.symm, by simpa [idsOf] using ih hnd.2⟩

theorem eraseObsId_eq_nil (lst : List notification_observer) (i : Int)
    (h : eraseObsId lst i = []) :
    lst = [] ∨ ∃ o, lst = [o] ∧ o.m_id = i := by
  cases lst with
  | nil => exact Or.inl rfl
  | cons o rest =>
    by_cases h2 : o.m_id = i
    · simp only [eraseObsId, if_pos h2] at h
      exact Or.inr ⟨o, by simp [h], h2⟩
    · simp [eraseObsId, h2] at h

theorem lookupA_mem {β : Type} (l : List (Int × β)) (a : Int) (b : β)
    (h : lookupA l a = some b) : (a, b) ∈ l := by
  induction l with
  | nil => simp [lookupA] at h
  | cons p rest ih =>
    obtain ⟨k, v⟩ := p
    by_cases h2 : a = k
    · simp only [lookupA, if_pos h2, Option.some.injEq] at h
      simp [h2, h]
    · simp only [lookupA, if_neg h2] at h
      exact List.mem_cons_of_mem _ (ih h)

theorem mem_liveIds_of_lookup (s : notifly) (t : Int)
    (lst : List notification_observer) (h : lookupA s.m_observers t = some lst)
    (j : Int) (hj : j ∈ idsOf lst) : j ∈ liveIds s := by
  have hperm := (allObservers_perm_of_lookup s.m_observers t lst h).map
    (fun o => o.m_id)
  unfold liveIds idsOf
  rw [hperm.mem_iff]
  simp only [List.map_append, List.mem_append]
  exact Or.inl (by simpa [idsOf] using hj)

/-! ### The registry invariant -/

/-- Well-formedness of a reachable engine state: live observer ids are
pairwise distinct, released ids are distinct, not live, and within the range
of ids issued so far; all live ids are positive and below the monotonic
counter; topic entries hold non-empty lists; both maps have unique keys; and
every by-id index entry points at a topic list actually containing that id. -/
structure Inv (s : notifly) : Prop where
  live_nodup : (liveIds s).Nodup
  released_fresh : ∀ i ∈ s.m_id_manager.m_released_ids, i ∉ liveIds s
  released_nodup : s.m_id_manager.m_released_ids.Nodup
  live_bounds : ∀ i ∈ liveIds s, 1 ≤ i ∧ i < s.m_id_manager.m_next_id
  released_bounds : ∀ i ∈ s.m_id_manager.m_released_ids,
    1 ≤ i ∧ i < s.m_id_manager.m_next_id
  next_pos : 1 ≤ s.m_id_manager.m_next_id
  topics_nonempty : ∀ p ∈ s.m_observers, p.2 ≠ []
  topic_keys_nodup : (keysA s.m_observers).Nodup
  by_id_keys_nodup : (keysA s.m_observers_by_id).Nodup
  by_id_consistent : ∀ i t, lookupA s.m_observers_by_id i = some t →
    ∃ lst, lookupA s.m_observers t = some lst ∧ i ∈ idsOf lst

theorem Inv_init : Inv notifly.init := by
  constructor <;>
    simp [notifly.init, id_manager.init, liveIds, allObservers, idsOf, keysA,
      lookupA]

theorem get_unique_id_cases (m : id_manager)
    (h : (m.get_unique_id).1 ≠ -1) :
    (∃ rest, m.m_released_ids = (m.get_unique_id).1 :: rest ∧
      (m.get_unique_id).2.m_released_ids = rest ∧
      (m.get_unique_id).2.m_next_id = m.m_next_id) ∨
    (m.m_released_ids = [] ∧ (m.get_unique_id).1 = m.m_next_id ∧
      (m.get_unique_id).2.m_released_ids = [] ∧
      (m.get_unique_id).2.m_next_id = m.m_next_id + 1) := by
  cases hrel : m.m_released_ids with
  | cons i rest =>
    left
    exact ⟨rest, by simp [id_manager.get_unique_id, hrel]⟩
  | nil =>
    right
    by_cases hmax : m.m_next_id = intMax
    · exfalso
      exact h (by simp [id_manager.get_unique_id, hrel, hmax])
    · simp [id_manager.get_unique_id, hrel, hmax]

theorem post_state_eq (s : notifly) (n : Int) (types : String) (payload : Nat)
    (a_async : Bool) :
    (s.post_notification n types payload a_async).2.2 = s := by
  unfold notifly.post_notification
  cases hl : lookupA s.m_observers n with
  | none => rfl
  | some lst => by_cases hg : typeGateOk lst types <;> simp [hg]

theorem Inv_add_aux (s : notifly) (hs : Inv s) (n : Int) (types : String)
    (cb : Nat) (i : Int) (idm2 : id_manager)
    (hfresh : i ∉ liveIds s) (hpos : 1 ≤ i)
    (hlt : i < idm2.m_next_id)
    (hmono : s.m_id_manager.m_next_id ≤ idm2.m_next_id)
    (hrsub : ∀ j ∈ idm2.m_released_ids, j ∈ s.m_id_manager.m_released_ids)
    (hrnod : idm2.m_released_ids.Nodup)
    (hinotr : i ∉ idm2.m_released_ids) :
    Inv { s with
            m_id_manager := idm2,
            m_observers := insertA s.m_observers n
              (((lookupA s.m_observers n).getD []) ++ [⟨i, n, types, cb⟩]),
            m_observers_by_id := insertA s.m_observers_by_id i n } := by
  set obs : notification_observer := ⟨i, n, types, cb⟩ with hobs
  set s2 : notifly :=
    { s with
        m_id_manager := idm2,
        m_observers := insertA s.m_observers n
          (((lookupA s.m_observers n).getD []) ++ [obs]),
        m_observers_by_id := insertA s.m_observers_by_id i n } with hs2
  have hperm : (liveIds s2).Perm (i :: liveIds s) := by
    cases hl : lookupA s.m_observers n with
    | none =>
      have hnew := allObservers_insertA_new s.m_observers n
        (((lookupA s.m_observers n).getD []) ++ [obs]) hl
      have he : liveIds s2 = liveIds s ++ [i] := by
        unfold liveIds idsOf
        rw [show s2.m_observers = insertA s.m_observers n
          (((lookupA s.m_observers n).getD []) ++ [obs]) from rfl, hnew, hl]
        simp [hobs]
      rw [he]
      exact List.perm_append_singleton i (liveIds s)
    | some lst =>
      unfold liveIds idsOf
      rw [show s2.m_observers = insertA s.m_observers n
        (((lookupA s.m_observers n).getD []) ++ [obs]) from rfl, hl]
      simp only [Option.getD_some]
      have hq1 := (allObservers_insertA_perm s.m_observers n lst
        (lst ++ [obs]) hl).map (fun o => o.m_id)
      have hq2 := (allObservers_perm_of_lookup s.m_observers n lst hl).map
        (fun o => o.m_id)
      simp only [List.map_append, hobs, List.map_cons, List.map_nil,
        List.append_assoc, List.singleton_append] at hq1 hq2
      have hmid : (List.map (fun o => o.m_id) lst ++ i ::
          List.map (fun o => o.m_id) (allObservers (eraseA s.m_observers n))).Perm
          (i :: (List.map (fun o => o.m_id) lst ++
            List.map (fun o => o.m_id) (allObservers (eraseA s.m_observers n)))) :=
        List.perm_middle
      exact hq1.trans (hmid.trans (hq2.symm.cons i))
  have hsub : ∀ j ∈ liveIds s2, j = i ∨ j ∈ liveIds s := by
    intro j hj
    have := hperm.mem_iff.mp hj
    simpa using this
  have hidm : s2.m_id_manager = idm2 := rfl
  refine ⟨?_, ?_, ?_, ?_, ?_, ?_, ?_, ?_, ?_, ?_⟩
  · exact hperm.symm.nodup ((List.nodup_cons).2 ⟨hfresh, hs.live_nodup⟩)
  · intro j hj hmem
    rcases hsub j hmem with h | h
    · exact hinotr (h ▸ hj)
    · exact hs.released_fresh j (hrsub j hj) h
  · exact hrnod
  · intro j hj
    rw [hidm]
    rcases hsub j hj with h | h
    · exact h ▸ ⟨hpos, hlt⟩
    · have := hs.live_bounds j h
      omega
  · intro j hj
    rw [hidm]
    have := hs.released_bounds j (hrsub j hj)
    omega
  · rw [hidm]
    have := hs.next_pos
    omega
  · intro p hp
    rcases mem_insertA _ _ _ _ hp with h | h
    · rw [h]
      simp
    · exact hs.topics_nonempty p h
  · exact keysA_nodup_insertA _ _ _ hs.topic_keys_nodup
  · exact keysA_nodup_insertA _ _ _ hs.by_id_keys_nodup
  · intro j t2 hj
    by_cases hji : j = i
    · rw [hji, lookupA_insertA_self] at hj
      injection hj with hj2
      refine ⟨((lookupA s.m_observers n).getD []) ++ [obs], ?_, ?_⟩
      · rw [← hj2]
        exact lookupA_insertA_self s.m_observers n _
      · rw [hji]
        simp [idsOf, hobs]
    · rw [lookupA_insertA_ne _ _ _ _ hji] at hj
      obtain ⟨lst3, hl3, hm3⟩ := hs.by_id_consistent j t2 hj
      by_cases ht2 : t2 = n
      · subst ht2
        refine ⟨(lookupA s.m_observers t2).getD [] ++ [obs],
          lookupA_insertA_self _ _ _, ?_⟩
        rw [hl3]
        simp only [Option.getD_some, idsOf, List.map_append, List.mem_append]
        exact Or.inl (by simpa [idsOf] using hm3)
      · exact ⟨lst3, by rw [lookupA_insertA_ne _ _ _ _ ht2]; exact hl3, hm3⟩

theorem Inv_add (s : notifly) (hs : Inv s) (n : Int) (types : String)
    (cb : Nat) : Inv (s.add_observer n types cb).2 := by
  by_cases hg : addGate s n types
  · by_cases halloc : (s.m_id_manager.get_unique_id).1 = -1
    · have halloc2 : (s.m_id_manager.get_unique_id).2 = s.m_id_manager := by
        cases hrel : s.m_id_manager.m_released_ids with
        | cons j rest =>
          exfalso
          have h1 : (s.m_id_manager.get_unique_id).1 = j := by
            simp [id_manager.get_unique_id, hrel]
          have h2 := hs.released_bounds j (by simp [hrel])
          rw [h1] at halloc
          omega
        | nil =>
          by_cases hmax : s.m_id_manager.m_next_id = intMax
          · simp [id_manager.get_unique_id, hrel, hmax]
          · exfalso
            have h1 : (s.m_id_manager.get_unique_id).1 =
                s.m_id_manager.m_next_id := by
              simp [id_manager.get_unique_id, hrel, hmax]
            have h2 := hs.next_pos
            rw [h1] at halloc
            omega
      have he : (s.add_observer n types cb).2 = s := by
        simp [notifly.add_observer, hg, halloc, halloc2]
      rw [he]
      exact hs
    · have hpos : 1 ≤ (s.m_id_manager.get_unique_id).1 := by
        rcases get_unique_id_cases s.m_id_manager halloc with
          ⟨rest, h1, h2, h3⟩ | ⟨h1, h2, h3, h4⟩
        · exact (hs.released_bounds _ (by simp [h1])).1
        · rw [h2]
          exact hs.next_pos
      have he : (s.add_observer n types cb).2 =
          { s with
              m_id_manager := (s.m_id_manager.get_unique_id).2,
              m_observers := insertA s.m_observers n
                (((lookupA s.m_observers n).getD []) ++
                  [⟨(s.m_id_manager.get_unique_id).1, n, types, cb⟩]),
              m_observers_by_id := insertA s.m_observers_by_id
                (s.m_id_manager.get_unique_id).1 n } := by
        simp [notifly.add_observer, hg, halloc]
      rw [he]
      rcases get_unique_id_cases s.m_id_manager halloc with
        ⟨rest, h1, h2, h3⟩ | ⟨h1, h2, h3, h4⟩
      · refine Inv_add_aux s hs n types cb _ _ ?_ hpos ?_ ?_ ?_ ?_ ?_
        · exact hs.released_fresh _ (by simp [h1])
        · rw [h3]
          exact (hs.released_bounds _ (by simp [h1])).2
        · omega
        · intro j hj
          rw [h2] at hj
          simp [h1, hj]
        · rw [h2]
          exact List.Nodup.of_cons (h1 ▸ hs.released_nodup)
        · rw [h2]
          have := h1 ▸ hs.released_nodup
          simp only [List.nodup_cons] at this
          exact this.1
      · refine Inv_add_aux s hs n types cb _ _ ?_ hpos ?_ ?_ ?_ ?_ ?_
        · rw [h2]
          intro hmem
          have := hs.live_bounds _ hmem
          omega
        · omega
        · omega
        · intro j hj
          rw [h3] at hj
          simp at hj
        · rw [h3]
          exact List.nodup_nil
        · rw [h3]
          simp
  · have he : (s.add_observer n types cb).2 = s := by
      simp [notifly.add_observer, hg]
    rw [he]
    exact hs

theorem lookupA_foldl_eraseA_some (lst : List notification_observer)
    (m0 : List (Int × Int)) (j v : Int) (hnd : (keysA m0).Nodup)
    (h : lookupA (lst.foldl (fun m o => eraseA m o.m_id) m0) j = some v) :
    lookupA m0 j = some v ∧ j ∉ idsOf lst := by
  induction lst generalizing m0 with
  | nil => exact ⟨h, by simp [idsOf]⟩
  | cons o rest ih =>
    have h2 := ih (eraseA m0 o.m_id) (keysA_nodup_eraseA _ _ hnd) h
    by_cases hjo : j = o.m_id
    · exfalso
      rw [hjo, lookupA_eraseA_self m0 o.m_id hnd] at h2
      exact absurd h2.1 (by simp)
    · refine ⟨by rw [← lookupA_eraseA_ne m0 o.m_id j hjo]; exact h2.1, ?_⟩
      simp only [idsOf, List.map_cons, List.mem_cons, not_or]
      exact ⟨hjo, by simpa [idsOf] using h2.2⟩

theorem Inv_remove (s : notifly) (hs : Inv s) (i : Int) :
    Inv (s.remove_observer i).2 := by
  cases hby : lookupA s.m_observers_by_id i with
  | none =>
    rw [remove_observer_not_found s i hby]
    exact hs
  | some t =>
    obtain ⟨lst, hl, hmem⟩ := hs.by_id_consistent i t hby
    have hlive : i ∈ liveIds s := mem_liveIds_of_lookup s t lst hl i hmem
    have hE : (liveIds s).Perm
        (idsOf lst ++ idsOf (allObservers (eraseA s.m_observers t))) := by
      have := (allObservers_perm_of_lookup s.m_observers t lst hl).map
        (fun o => o.m_id)
      simpa [liveIds, idsOf, List.map_append] using this
    have hinotrel : i ∉ s.m_id_manager.m_released_ids :=
      fun hmem2 => hs.released_fresh i hmem2 hlive
    have hbounds := hs.live_bounds i hlive
    have hlnodup : (idsOf lst ++
        idsOf (allObservers (eraseA s.m_observers t))).Nodup :=
      hE.nodup hs.live_nodup
    have hlstnodup : (idsOf lst).Nodup := hlnodup.of_append_left
    have hdisj := List.disjoint_of_nodup_append hlnodup
    have hEsub : ∀ j, j ∈ idsOf (allObservers (eraseA s.m_observers t)) →
        j ∈ liveIds s :=
      fun j hj => hE.mem_iff.mpr (List.mem_append.2 (Or.inr hj))
    by_cases he : eraseObsId lst i = []
    · have hstate : (s.remove_observer i).2 =
          { s with
              m_observers := eraseA s.m_observers t,
              m_observers_by_id := eraseA s.m_observers_by_id i,
              m_id_manager := s.m_id_manager.release_id i } := by
        simp [notifly.remove_observer, hby, hl, he]
      rw [hstate]
      have hlst_single : idsOf lst = [i] := by
        rcases eraseObsId_eq_nil lst i he with h | ⟨o, h1, h2⟩
        · rw [h] at hmem
          simp [idsOf] at hmem
        · rw [h1]
          simp [idsOf, h2]
      refine ⟨?_, ?_, ?_, ?_, ?_, ?_, ?_, ?_, ?_, ?_⟩
      · exact hlnodup.of_append_right
      · intro j hj hmem2
        rcases List.mem_cons.mp hj with h | h
        · subst h
          exact hdisj (by simp [hlst_single]) hmem2
        · exact hs.released_fresh j h (hEsub j hmem2)
      · exact (List.nodup_cons).2 ⟨hinotrel, hs.released_nodup⟩
      · intro j hj
        exact hs.live_bounds j (hEsub j hj)
      · intro j hj
        rcases List.mem_cons.mp hj with h | h
        · exact h ▸ hbounds
        · exact hs.released_bounds j h
      · exact hs.next_pos
      · intro p hp
        exact hs.topics_nonempty p (mem_eraseA _ _ _ hp)
      · exact keysA_nodup_eraseA _ _ hs.topic_keys_nodup
      · exact keysA_nodup_eraseA _ _ hs.by_id_keys_nodup
      · intro j t2 hj
        by_cases hji : j = i
        · rw [hji, lookupA_eraseA_self _ _ hs.by_id_keys_nodup] at hj
          exact absurd hj (by simp)
        · rw [lookupA_eraseA_ne _ _ _ hji] at hj
          obtain ⟨lst3, hl3, hm3⟩ := hs.by_id_consistent j t2 hj
          by_cases ht2 : t2 = t
          · exfalso
            rw [ht2, hl] at hl3
            injection hl3 with hl3
            rw [← hl3, hlst_single] at hm3
            simp at hm3
            exact hji hm3
          · exact ⟨lst3, by rw [lookupA_eraseA_ne _ _ _ ht2]; exact hl3, hm3⟩
    · have hstate : (s.remove_observer i).2 =
          { s with
              m_observers := insertA s.m_observers t (eraseObsId lst i),
              m_observers_by_id := eraseA s.m_observers_by_id i,
              m_id_manager := s.m_id_manager.release_id i } := by
        simp [notifly.remove_observer, hby, hl, he]
      rw [hstate]
      have hP : (idsOf (allObservers (insertA s.m_observers t
          (eraseObsId lst i)))).Perm (idsOf (eraseObsId lst i) ++
            idsOf (allObservers (eraseA s.m_observers t))) := by
        have := (allObservers_insertA_perm s.m_observers t lst
          (eraseObsId lst i) hl).map (fun o => o.m_id)
        simpa [idsOf, List.map_append] using this
      have hsubl : (idsOf (eraseObsId lst i)).Sublist (idsOf lst) := by
        simpa [idsOf] using (eraseObsId_sublist lst i).map (fun o => o.m_id)
      have hsub2 : ∀ j, j ∈ idsOf (allObservers (insertA s.m_observers t
          (eraseObsId lst i))) → j ∈ liveIds s := by
        intro j hj
        rcases List.mem_append.mp (hP.mem_iff.mp hj) with h | h
        · exact hE.mem_iff.mpr (List.mem_append.2 (Or.inl (hsubl.subset h)))
        · exact hEsub j h
      refine ⟨?_, ?_, ?_, ?_, ?_, ?_, ?_, ?_, ?_, ?_⟩
      · exact hP.symm.nodup (hlnodup.sublist (hsubl.append_right _))
      · intro j hj hmem2
        rcases List.mem_cons.mp hj with h | h
        · subst h
          rcases List.mem_append.mp (hP.mem_iff.mp hmem2) with h2 | h2
          · exact not_mem_ids_eraseObsId lst j hlstnodup h2
          · exact hdisj hmem h2
        · exact hs.released_fresh j h (hsub2 j hmem2)
      · exact (List.nodup_cons).2 ⟨hinotrel, hs.released_nodup⟩
      · intro j hj
        exact hs.live_bounds j (hsub2 j hj)
      · intro j hj
        rcases List.mem_cons.mp hj with h | h
        · exact h ▸ hbounds
        · exact hs.released_bounds j h
      · exact hs.next_pos
      · intro p hp
        rcases mem_insertA _ _ _ _ hp with h | h
        · rw [h]
          exact he
        · exact hs.topics_nonempty p h
      · exact keysA_nodup_insertA _ _ _ hs.topic_keys_nodup
      · exact keysA_nodup_eraseA _ _ hs.by_id_keys_nodup
      · intro j t2 hj
        by_cases hji : j = i
        · rw [hji, lookupA_eraseA_self _ _ hs.by_id_keys_nodup] at hj
          exact absurd hj (by simp)
        · rw [lookupA_eraseA_ne _ _ _ hji] at hj
          obtain ⟨lst3, hl3, hm3⟩ := hs.by_id_consistent j t2 hj
          by_cases ht2 : t2 = t
          · refine ⟨eraseObsId lst i, ?_, ?_⟩
            · rw [ht2]
              exact lookupA_insertA_self _ _ _
            · rw [ht2, hl] at hl3
              injection hl3 with hl3
              exact mem_ids_eraseObsId lst i j hji (hl3 ▸ hm3)
          · exact ⟨lst3, by rw [lookupA_insertA_ne _ _ _ _ ht2]; exact hl3, hm3⟩

theorem Inv_remove_all (s : notifly) (hs : Inv s) (n : Int) :
    Inv (s.remove_all_observers n).2 := by
  cases hl : lookupA s.m_observers n with
  | none =>
    have he : (s.remove_all_observers n).2 = s := by
      simp [notifly.remove_all_observers, hl]
    rw [he]
    exact hs
  | some lst =>
    have hstate : (s.remove_all_observers n).2 =
        { s with
            m_observers := eraseA s.m_observers n,
            m_observers_by_id :=
              lst.foldl (fun m o => eraseA m o.m_id) s.m_observers_by_id,
            m_id_manager :=
              lst.foldl (fun m o => m.release_id o.m_id) s.m_id_manager } := by
      simp [notifly.remove_all_observers, hl]
    rw [hstate]
    have hE : (liveIds s).Perm
        (idsOf lst ++ idsOf (allObservers (eraseA s.m_observers n))) := by
      have := (allObservers_perm_of_lookup s.m_observers n lst hl).map
        (fun o => o.m_id)
      simpa [liveIds, idsOf, List.map_append] using this
    have hlnodup : (idsOf lst ++
        idsOf (allObservers (eraseA s.m_observers n))).Nodup :=
      hE.nodup hs.live_nodup
    have hlstnodup : (idsOf lst).Nodup := hlnodup.of_append_left
    have hdisj := List.disjoint_of_nodup_append hlnodup
    have hEsub : ∀ j, j ∈ idsOf (allObservers (eraseA s.m_observers n)) →
        j ∈ liveIds s :=
      fun j hj => hE.mem_iff.mpr (List.mem_append.2 (Or.inr hj))
    have hlstsub : ∀ j, j ∈ idsOf lst → j ∈ liveIds s :=
      fun j hj => hE.mem_iff.mpr (List.mem_append.2 (Or.inl hj))
    have hrel := foldl_release_released lst s.m_id_manager
    have hnext := foldl_release_next_id lst s.m_id_manager
    refine ⟨?_, ?_, ?_, ?_, ?_, ?_, ?_, ?_, ?_, ?_⟩
    · exact hlnodup.of_append_right
    · intro j hj hmem2
      rw [hrel] at hj
      rcases List.mem_append.mp hj with h | h
      · exact hdisj (List.mem_reverse.mp h) hmem2
      · exact hs.released_fresh j h (hEsub j hmem2)
    · rw [hrel]
      refine (List.nodup_append).2 ⟨List.nodup_reverse.2 hlstnodup,
        hs.released_nodup, ?_⟩
      intro j hj
      exact fun hj2 =>
        hs.released_fresh j hj2 (hlstsub j (List.mem_reverse.mp hj))
    · intro j hj
      rw [hnext]
      exact hs.live_bounds j (hEsub j hj)
    · intro j hj
      rw [hnext]
      rw [hrel] at hj
      rcases List.mem_append.mp hj with h | h
      · exact hs.live_bounds j (hlstsub j (List.mem_reverse.mp h))
      · exact hs.released_bounds j h
    · rw [hnext]
      exact hs.next_pos
    · intro p hp
      exact hs.topics_nonempty p (mem_eraseA _ _ _ hp)
    · exact keysA_nodup_eraseA _ _ hs.topic_keys_nodup
    · exact keysA_nodup_foldl_eraseA _ _ hs.by_id_keys_nodup
    · intro j t2 hj
      obtain ⟨hj2, hj3⟩ := lookupA_foldl_eraseA_some lst s.m_observers_by_id
        j t2 hs.by_id_keys_nodup hj
      obtain ⟨lst3, hl3, hm3⟩ := hs.by_id_consistent j t2 hj2
      by_cases ht2 : t2 = n
      · exfalso
        rw [ht2, hl] at hl3
        injection hl3 with hl3
        exact hj3 (hl3 ▸ hm3)
      · exact ⟨lst3, by rw [lookupA_eraseA_ne _ _ _ ht2]; exact hl3, hm3⟩

/-! ### Reachability and the invariant claims (C4, C7) -/

/-- One engine operation, as performed through the public API. -/
inductive Step : notifly → notifly → Prop
  | add (n : Int) (types : String) (cb : Nat) (s : notifly) :
      Step s (s.add_observer n types cb).2
  | remove (i : Int) (s : notifly) : Step s (s.remove_observer i).2
  | removeAll (n : Int) (s : notifly) : Step s (s.remove_all_observers n).2
  | post (n : Int) (types : String) (payload : Nat) (a_async : Bool)
      (s : notifly) : Step s (s.post_notification n types payload a_async).2.2

/-- States reachable from a freshly constructed center by API calls. -/
inductive Reachable : notifly → Prop
  | init : Reachable notifly.init
  | step {s s2 : notifly} : Reachable s → Step s s2 → Reachable s2

theorem Inv_of_reachable (s : notifly) (h : Reachable s) : Inv s := by
  induction h with
  | init => exact Inv_init
  | step h hstep ih =>
    cases hstep with
    | add n types cb s0 => exact Inv_add _ ih n types cb
    | remove i s0 => exact Inv_remove _ ih i
    | removeAll n s0 => exact Inv_remove_all _ ih n
    | post n types payload a_async s0 =>
      rw [post_state_eq]
      exact ih

/-- Claim C4: over any sequence of engine operations, no two simultaneously
registered (live) observers share an id, and every id sitting in the
allocator's released pool belongs to no live observer — so an id released by
`remove_observer` has no current holder until an `add_observer` reissues it. -/
theorem observer_id_uniqueness (s : notifly) (h : Reachable s) :
    (liveIds s).Nodup ∧
    ∀ i ∈ s.m_id_manager.m_released_ids, i ∉ liveIds s :=
  ⟨(Inv_of_reachable s h).live_nodup, (Inv_of_reachable s h).released_fresh⟩

/-- Witness for C4 at a concrete reachable state: one add, one remove, then
another add on a fresh center. -/
theorem observer_id_uniqueness_witness :
    (liveIds ((((notifly.init.add_observer 1 "(Qxt)i" 7).2.remove_observer
        1).2.add_observer 2 "(Qxt)d" 8).2)).Nodup ∧
    ∀ i ∈ ((((notifly.init.add_observer 1 "(Qxt)i" 7).2.remove_observer
        1).2.add_observer 2 "(Qxt)d"
        8).2).m_id_manager.m_released_ids,
      i ∉ liveIds ((((notifly.init.add_observer 1 "(Qxt)i"
        7).2.remove_observer 1).2.add_observer 2 "(Qxt)d" 8).2) :=
  observer_id_uniqueness _
    (Reachable.step
      (Reachable.step
        (Reachable.step Reachable.init (Step.add 1 "(Qxt)i" 7 notifly.init))
        (Step.remove 1 _))
      (Step.add 2 "(Qxt)d" 8 _))

/-- Claim C7: in every reachable state, every topic present in the registry
holds a non-empty observer list (remove deletes a topic with its last
observer; add creates a topic together with its first observer), and hence a
`post_notification` that does not fail reports and dispatches to at least one
observer. -/
theorem topics_have_observers (s : notifly) (h : Reachable s) :
    (∀ p ∈ s.m_observers, p.2 ≠ []) ∧
    (∀ (n : Int) (types : String) (payload : Nat) (a_async : Bool),
      (s.post_notification n types payload a_async).1 ≠
        notifly_result.toInt notifly_result.notification_not_found →
      (s.post_notification n types payload a_async).1 ≠
        notifly_result.toInt notifly_result.payload_type_not_match →
      1 ≤ (s.post_notification n types payload a_async).1 ∧
      (s.post_notification n types payload a_async).2.1 ≠ []) := by
  have hInv := Inv_of_reachable s h
  refine ⟨hInv.topics_nonempty, ?_⟩
  intro n types payload a_async h1 h2
  cases hl : lookupA s.m_observers n with
  | none =>
    exfalso
    apply h1
    simp [notifly.post_notification, hl]
  | some lst =>
    by_cases hg : typeGateOk lst types
    · have hpost : s.post_notification n types payload a_async =
          ((lst.length : Int), lst.map (fun o => (o, payload)), s) := by
        simp [notifly.post_notification, hl, hg]
      rw [hpost]
      have hne : lst ≠ [] :=
        hInv.topics_nonempty (n, lst) (lookupA_mem _ _ _ hl)
      have hlen : 0 < lst.length := List.length_pos.mpr hne
      constructor
      · show (1 : Int) ≤ (lst.length : Int)
        exact_mod_cast hlen
      · show lst.map (fun o => (o, payload)) ≠ []
        simp [hne]
    · exfalso
      apply h2
      simp [notifly.post_notification, hl, hg]

/-- Witness for C7 at a concrete reachable state with one observer on
topic 1: a matching post reports one observer and a non-empty dispatch. -/
theorem topics_have_observers_witness :
    (∀ p ∈ (notifly.init.add_observer 1 "(Qxt)i" 7).2.m_observers, p.2 ≠ []) ∧
    (1 ≤ ((notifly.init.add_observer 1 "(Qxt)i" 7).2.post_notification 1
        "(Qxt)i" 5 false).1 ∧
      ((notifly.init.add_observer 1 "(Qxt)i" 7).2.post_notification 1 "(Qxt)i"
        5 false).2.1 ≠ []) := by
  have h := topics_have_observers _
    (Reachable.step Reachable.init (Step.add 1 "(Qxt)i" 7 notifly.init))
  exact ⟨h.1, h.2 1 "(Qxt)i" 5 false (by decide) (by decide)⟩

/-! ### post_and_wait (Correlator) and the C adapters -/

/-- `stringType<void*>()`: the signature of the single `void*`-shaped argument
used by the C adapters. The concrete `type_index` name string is irrelevant;
only equality of signature strings matters. -/
def sig_void_ptr : String := "(Qxt)Pv"

/-- `stringType<c_payload>()`: the signature of the `c_payload` wrapper struct
passed by value through the older C adapter (c_notifly.cpp). -/
def sig_c_payload : String := "(Qxt)9c_payload"

/-- `NOTIFLY_INVALID_HANDLE` from notifly_c.h. -/
def NOTIFLY_INVALID_HANDLE : Int := -5

/-- Modelled from the spec: map a failed engine return code back to the
`notifly_result` that `post_and_wait` propagates; a 0-observer post is
defensively treated as `notification_not_found` (spec §4.6 step 4). -/
def errorOfCode (i : Int) : notifly_result :=
  if i = -1 then notifly_result.observer_not_found
  else if i = -3 then notifly_result.payload_type_not_match
  else if i = -4 then notifly_result.no_more_observer_ids
  else notifly_result.notification_not_found

/-- Modelled from the spec: `notifly::post_and_wait` is called by the C
wrapper and exercised by the unit tests, but its C++ definition is not among
the sources here. Per spec §4.6 it: (1) registers a temporary single-use
observer on `wait_topic` whose callback fulfills a promise with the payload
it receives (propagating a registration failure); (2) posts on `post_topic`,
and on failure removes the temporary observer and propagates the error;
(3) waits on the future for at most `timeout_ms`. Real time is abstracted by
the oracle `response`: `none` means no response was posted on the wait topic
within the timeout, `some r` that the promise was fulfilled with `r`.
Returns (result, response payload, final state, number of times the
temporary observer was removed). -/
def notifly.post_and_wait (s : notifly) (post_topic wait_topic : Int)
    (timeout_ms : Int) (ptypes rtypes : String) (payload cb : Nat)
    (response : Option Nat) : notifly_result × Option Nat × notifly × Nat :=
  let added := s.add_observer wait_topic rtypes cb
  if added.1 ≤ 0 then
    (errorOfCode added.1, none, added.2, 0)
  else
    let posted := added.2.post_notification post_topic ptypes payload false
    if posted.1 ≤ 0 then
      (errorOfCode posted.1, none, (posted.2.2.remove_observer added.1).2, 1)
    else
      match response with
      | none =>
          (notifly_result.timeout, none,
            (posted.2.2.remove_observer added.1).2, 1)
      | some r =>
          (notifly_result.success, some r,
            (posted.2.2.remove_observer added.1).2, 1)

/-- The engine invocations a C adapter entry point performs, recorded so that
"the engine is not invoked" is a provable statement. -/
inductive engine_call : Type
  | add_observer (notification : Int)
  | post_notification (notification : Int)
  | post_notification_async (notification : Int)
  | remove_observer (observer_id : Int)
  | remove_all_observers (notification : Int)
  | post_and_wait (post_id wait_id : Int)
deriving DecidableEq

namespace c_notifly

/-- `notifly_add_observer` from the older C adapter (c_notifly.cpp): a null
handler pointer, a handler with a null inner engine pointer, or a null
callback yields -1 without touching the engine. The handler is
`Option (Option notifly)`: outer `none` is a null `notifly_handler_t*`,
inner `none` a null `handler->_`. -/
def notifly_add_observer (handler : Option (Option notifly))
    (notification : Int) (callback : Option Nat) :
    Int × Option (Option notifly) × List engine_call :=
  match handler, callback with
  | none, _ => (-1, handler, [])
  | some none, _ => (-1, handler, [])
  | some (some _), none => (-1, handler, [])
  | some (some s), some cb =>
      let r := s.add_observer notification sig_c_payload cb
      (r.1, some (some r.2), [engine_call.add_observer notification])

/-- `notifly_post_notification` from c_notifly.cpp. -/
def notifly_post_notification (handler : Option (Option notifly))
    (notification : Int) (payload : Nat) :
    Int × Option (Option notifly) × List engine_call :=
  match handler with
  | none => (-1, handler, [])
  | some none => (-1, handler, [])
  | some (some s) =>
      let r := s.post_notification notification sig_c_payload payload false
      (r.1, some (some r.2.2), [engine_call.post_notification notification])

/-- `notifly_post_notification_async` from c_notifly.cpp. -/
def notifly_post_notification_async (handler : Option (Option notifly))
    (notification : Int) (payload : Nat) :
    Int × Option (Option notifly) × List engine_call :=
  match handler with
  | none => (-1, handler, [])
  | some none => (-1, handler, [])
  | some (some s) =>
      let r := s.post_notification_async notification sig_c_payload payload
      (r.1, some (some r.2.2),
        [engine_call.post_notification_async notification])

/-- `notifly_remove_observer` from c_notifly.cpp. -/
def notifly_remove_observer (handler : Option (Option notifly))
    (observer_id : Int) : Int × Option (Option notifly) × List engine_call :=
  match handler with
  | none => (-1, handler, [])
  | some none => (-1, handler, [])
  | some (some s) =>
      let r := s.remove_observer observer_id
      (r.1, some (some r.2), [engine_call.remove_observer observer_id])

/-- `notifly_remove_all_observers` from c_notifly.cpp. -/
def notifly_remove_all_observers (handler : Option (Option notifly))
    (notification : Int) : Int × Option (Option notifly) × List engine_call :=
  match handler with
  | none => (-1, handler, [])
  | some none => (-1, handler, [])
  | some (some s) =>
      let r := s.remove_all_observers notification
      (r.1, some (some r.2), [engine_call.remove_all_observers notification])

end c_notifly

namespace notifly_c

/-- `notifly_add_observer` from the newer C adapter (notifly_c.cpp): a null
handle or null callback yields `NOTIFLY_INVALID_HANDLE` without calling the
engine. A valid handle wraps the engine state it operates on (for the
default-instance wrapper, the default engine's state). `user_data` is
captured into the registered closure and does not otherwise affect the
adapter. -/
def notifly_add_observer (handle : Option notifly) (notification_id : Int)
    (callback : Option Nat) (user_data : Nat) :
    Int × Option notifly × List engine_call :=
  match handle, callback with
  | none, _ => (NOTIFLY_INVALID_HANDLE, handle, [])
  | some _, none => (NOTIFLY_INVALID_HANDLE, handle, [])
  | some s, some cb =>
      let r := s.add_observer notification_id sig_void_ptr cb
      (r.1, some r.2, [engine_call.add_observer notification_id])

/-- `notifly_remove_observer` from notifly_c.cpp. -/
def notifly_remove_observer (handle : Option notifly) (observer_id : Int) :
    Int × Option notifly × List engine_call :=
  match handle with
  | none => (NOTIFLY_INVALID_HANDLE, handle, [])
  | some s =>
      let r := s.remove_observer observer_id
      (r.1, some r.2, [engine_call.remove_observer observer_id])

/-- `notifly_remove_all_observers` from notifly_c.cpp. -/
def notifly_remove_all_observers (handle : Option notifly)
    (notification_id : Int) : Int × Option notifly × List engine_call :=
  match handle with
  | none => (NOTIFLY_INVALID_HANDLE, handle, [])
  | some s =>
      let r := s.remove_all_observers notification_id
      (r.1, some r.2, [engine_call.remove_all_observers notification_id])

/-- `notifly_post_notification` from notifly_c.cpp. -/
def notifly_post_notification (handle : Option notifly)
    (notification_id : Int) (data : Nat) :
    Int × Option notifly × List engine_call :=
  match handle with
  | none => (NOTIFLY_INVALID_HANDLE, handle, [])
  | some s =>
      let r := s.post_notification notification_id sig_void_ptr data false
      (r.1, some r.2.2, [engine_call.post_notification notification_id])

/-- `notifly_post_notification_async` from notifly_c.cpp. -/
def notifly_post_notification_async (handle : Option notifly)
    (notification_id : Int) (data : Nat) :
    Int × Option notifly × List engine_call :=
  match handle with
  | none => (NOTIFLY_INVALID_HANDLE, handle, [])
  | some s =>
      let r := s.post_notification_async notification_id sig_void_ptr data
      (r.1, some r.2.2,
        [engine_call.post_notification_async notification_id])

/-- `notifly_post_and_wait` from notifly_c.cpp: a null handle or a null
`response_data` pointer yields `NOTIFLY_INVALID_HANDLE` without calling the
engine; otherwise the engine's `post_and_wait` runs with the `void*` payload
shape and `*response_data` receives the response on success and a null
pointer on any other result. Returns (code, the value written through
`response_data` — `none` when the early return left it untouched, with
`some none` standing for an assigned null — the final handle state, and the
engine calls made). -/
def notifly_post_and_wait (handle : Option notifly) (has_response_ptr : Bool)
    (post_notification_id wait_notification_id timeout_ms : Int)
    (post_data : Nat) (response : Option Nat) :
    Int × Option (Option Nat) × Option notifly × List engine_call :=
  match handle, has_response_ptr with
  | none, _ => (NOTIFLY_INVALID_HANDLE, none, handle, [])
  | some _, false => (NOTIFLY_INVALID_HANDLE, none, handle, [])
  | some s, true =>
      let r := s.post_and_wait post_notification_id wait_notification_id
        timeout_ms sig_void_ptr sig_void_ptr post_data 0 response
      (notifly_result.toInt r.1,
       if r.1 = notifly_result.success then some r.2.1 else some none,
       some r.2.2.1,
       [engine_call.post_and_wait post_notification_id wait_notification_id])

end notifly_c

/-- Claim C5: once the temporary registration on the wait topic succeeded, in
every outcome — fulfilled, timed out, or a failed post whose error is
propagated — the temporary observer is removed exactly once and is no longer
registered afterwards. When the request post also succeeds but no response
arrives within the timeout, `post_and_wait` returns `timeout` with the
response payload unset, and the newer C wrapper stores a null pointer into
`*response_data`; the promise is fulfilled at most once: the returned payload
is exactly the single oracle response. When the post fails, its error is
propagated with the payload unset, again after removing the temporary
observer exactly once. -/
theorem post_and_wait_timeout_cleanup (s : notifly)
    (post_topic wait_topic timeout_ms : Int) (ptypes rtypes : String)
    (payload cb : Nat)
    (hadd : 0 < (s.add_observer wait_topic rtypes cb).1)
    (hnd : (keysA s.m_observers_by_id).Nodup) :
    (0 < ((s.add_observer wait_topic rtypes cb).2.post_notification post_topic
        ptypes payload false).1 →
      s.post_and_wait post_topic wait_topic timeout_ms ptypes rtypes payload cb
        none =
      (notifly_result.timeout, none,
        ((s.add_observer wait_topic rtypes cb).2.remove_observer
          (s.add_observer wait_topic rtypes cb).1).2, 1)) ∧
    (∀ response,
      (s.post_and_wait post_topic wait_topic timeout_ms ptypes rtypes payload
        cb response).2.2.2 = 1 ∧
      lookupA (s.post_and_wait post_topic wait_topic timeout_ms ptypes rtypes
          payload cb response).2.2.1.m_observers_by_id
        (s.add_observer wait_topic rtypes cb).1 = none) ∧
    (∀ response,
      0 < ((s.add_observer wait_topic rtypes cb).2.post_notification post_topic
        ptypes payload false).1 →
      ((s.post_and_wait post_topic wait_topic timeout_ms ptypes rtypes payload
          cb response).1,
       (s.post_and_wait post_topic wait_topic timeout_ms ptypes rtypes payload
          cb response).2.1) =
        (match response with
         | none => (notifly_result.timeout, (none : Option Nat))
         | some r => (notifly_result.success, some r))) ∧
    (∀ response,
      ((s.add_observer wait_topic rtypes cb).2.post_notification post_topic
        ptypes payload false).1 ≤ 0 →
      s.post_and_wait post_topic wait_topic timeout_ms ptypes rtypes payload cb
        response =
      (errorOfCode ((s.add_observer wait_topic rtypes cb).2.post_notification
          post_topic ptypes payload false).1, none,
        ((s.add_observer wait_topic rtypes cb).2.remove_observer
          (s.add_observer wait_topic rtypes cb).1).2, 1)) ∧
    (ptypes = sig_void_ptr → rtypes = sig_void_ptr → cb = 0 →
      0 < ((s.add_observer wait_topic sig_void_ptr 0).2.post_notification
        post_topic sig_void_ptr payload false).1 →
      notifly_c.notifly_post_and_wait (some s) true post_topic wait_topic
        timeout_ms payload none =
      (notifly_result.toInt notifly_result.timeout, some none,
        some ((s.add_observer wait_topic sig_void_ptr 0).2.remove_observer
          (s.add_observer wait_topic sig_void_ptr 0).1).2,
        [engine_call.post_and_wait post_topic wait_topic])) := by
  have h0 : ¬ (s.add_observer wait_topic rtypes cb).1 ≤ 0 := by omega
  have hps := post_state_eq (s.add_observer wait_topic rtypes cb).2 post_topic
    ptypes payload false
  obtain ⟨hi1, hi2⟩ := add_observer_success s wait_topic rtypes cb
    (s.add_observer wait_topic rtypes cb).1
    (s.add_observer wait_topic rtypes cb).2 rfl hadd
  have hbyid : lookupA
      (s.add_observer wait_topic rtypes cb).2.m_observers_by_id
      (s.add_observer wait_topic rtypes cb).1 = some wait_topic := by
    rw [hi2]
    exact lookupA_insertA_self _ _ _
  obtain ⟨r1, r2, r3⟩ := remove_observer_by_id _ _ _ hbyid
  have hnone : lookupA
      ((s.add_observer wait_topic rtypes cb).2.remove_observer
        (s.add_observer wait_topic rtypes cb).1).2.m_observers_by_id
      (s.add_observer wait_topic rtypes cb).1 = none := by
    rw [r2, hi2]
    exact lookupA_eraseA_self _ _ (keysA_nodup_insertA _ _ _ hnd)
  have hrun_err : ∀ response,
      ((s.add_observer wait_topic rtypes cb).2.post_notification post_topic
        ptypes payload false).1 ≤ 0 →
      s.post_and_wait post_topic wait_topic timeout_ms ptypes rtypes payload cb
        response =
      (errorOfCode ((s.add_observer wait_topic rtypes cb).2.post_notification
          post_topic ptypes payload false).1, none,
        ((s.add_observer wait_topic rtypes cb).2.remove_observer
          (s.add_observer wait_topic rtypes cb).1).2, 1) := by
    intro response hp
    simp only [notifly.post_and_wait, if_neg h0, if_pos hp, hps]
  have hrun_none :
      0 < ((s.add_observer wait_topic rtypes cb).2.post_notification post_topic
        ptypes payload false).1 →
      s.post_and_wait post_topic wait_topic timeout_ms ptypes rtypes payload cb
        none =
      (notifly_result.timeout, none,
        ((s.add_observer wait_topic rtypes cb).2.remove_observer
          (s.add_observer wait_topic rtypes cb).1).2, 1) := by
    intro hp
    have h1 : ¬ ((s.add_observer wait_topic rtypes cb).2.post_notification
        post_topic ptypes payload false).1 ≤ 0 := by omega
    simp only [notifly.post_and_wait, if_neg h0, if_neg h1, hps]
  have hrun_some : ∀ r,
      0 < ((s.add_observer wait_topic rtypes cb).2.post_notification post_topic
        ptypes payload false).1 →
      s.post_and_wait post_topic wait_topic timeout_ms ptypes rtypes payload cb
        (some r) =
      (notifly_result.success, some r,
        ((s.add_observer wait_topic rtypes cb).2.remove_observer
          (s.add_observer wait_topic rtypes cb).1).2, 1) := by
    intro r hp
    have h1 : ¬ ((s.add_observer wait_topic rtypes cb).2.post_notification
        post_topic ptypes payload false).1 ≤ 0 := by omega
    simp only [notifly.post_and_wait, if_neg h0, if_neg h1, hps]
  refine ⟨hrun_none, ?_, ?_, hrun_err, ?_⟩
  · intro response
    by_cases hp : ((s.add_observer wait_topic rtypes cb).2.post_notification
        post_topic ptypes payload false).1 ≤ 0
    · rw [hrun_err response hp]
      exact ⟨rfl, hnone⟩
    · have hp2 : 0 < ((s.add_observer wait_topic rtypes
          cb).2.post_notification post_topic ptypes payload false).1 := by
        omega
      cases response with
      | none =>
        rw [hrun_none hp2]
        exact ⟨rfl, hnone⟩
      | some r =>
        rw [hrun_some r hp2]
        exact ⟨rfl, hnone⟩
  · intro response hp
    cases response with
    | none =>
      rw [hrun_none hp]
    | some r =>
      rw [hrun_some r hp]
  · intro he1 he2 he3 hp
    subst he1
    subst he2
    subst he3
    simp [notifly_c.notifly_post_and_wait, hrun_none hp]

/-- Witness for C5 on concrete runs. Success setup: one responder on topic 1,
wait topic 2, void-pointer signatures; the timeout path returns `timeout`
with no payload, the wrapper writes null, and the fulfilled path removes the
temporary observer exactly once. Propagated-error setup: a fresh center with
no observer on the post topic; the temporary observer registers, the post
fails with `notification_not_found`, the error propagates with the payload
unset, and the temporary observer is again removed exactly once. -/
theorem post_and_wait_timeout_cleanup_witness :
    ((notifly.init.add_observer 1 sig_void_ptr 3).2.post_and_wait 1 2 100
      sig_void_ptr sig_void_ptr 9 0 none).1 = notifly_result.timeout ∧
    ((notifly.init.add_observer 1 sig_void_ptr 3).2.post_and_wait 1 2 100
      sig_void_ptr sig_void_ptr 9 0 none).2.1 = none ∧
    ((notifly.init.add_observer 1 sig_void_ptr 3).2.post_and_wait 1 2 100
      sig_void_ptr sig_void_ptr 9 0 (some 5)).2.2.2 = 1 ∧
    (notifly_c.notifly_post_and_wait
      (some (notifly.init.add_observer 1 sig_void_ptr 3).2) true 1 2 100 9
      none).2.1 = some none ∧
    notifly.init.post_and_wait 1 2 100 sig_void_ptr sig_void_ptr 9 0 none =
      (notifly_result.notification_not_found, none,
        ((notifly.init.add_observer 2 sig_void_ptr 0).2.remove_observer
          (notifly.init.add_observer 2 sig_void_ptr 0).1).2, 1) := by
  have h := post_and_wait_timeout_cleanup
    (notifly.init.add_observer 1 sig_void_ptr 3).2 1 2 100 sig_void_ptr
    sig_void_ptr 9 0 (by decide) (by decide)
  have herr := post_and_wait_timeout_cleanup notifly.init 1 2 100 sig_void_ptr
    sig_void_ptr 9 0 (by decide) (by decide)
  refine ⟨by rw [h.1 (by decide)], by rw [h.1 (by decide)],
    (h.2.1 (some 5)).1, by rw [h.2.2.2.2 rfl rfl rfl (by decide)], ?_⟩
  rw [herr.2.2.2.1 none (by decide)]
  decide

/-- Claim C10: every C-adapter entry point called with a null instance handle
— and observer registration additionally with a null callback — returns the
adapter's invalid-handle code (-1 in the older adapter, which also rejects a
handler wrapping a null engine pointer; `NOTIFLY_INVALID_HANDLE` in the newer
one, whose `post_and_wait` also rejects a null response pointer) while
leaving the handle unchanged and making no engine call. -/
theorem c_adapter_null_checks :
    (∀ n cb, c_notifly.notifly_add_observer none n cb = (-1, none, [])) ∧
    (∀ n cb, c_notifly.notifly_add_observer (some none) n cb =
      (-1, some none, [])) ∧
    (∀ h n, c_notifly.notifly_add_observer h n none = (-1, h, [])) ∧
    (∀ n p, c_notifly.notifly_post_notification none n p = (-1, none, [])) ∧
    (∀ n p, c_notifly.notifly_post_notification (some none) n p =
      (-1, some none, [])) ∧
    (∀ n p, c_notifly.notifly_post_notification_async none n p =
      (-1, none, [])) ∧
    (∀ n p, c_notifly.notifly_post_notification_async (some none) n p =
      (-1, some none, [])) ∧
    (∀ i, c_notifly.notifly_remove_observer none i = (-1, none, [])) ∧
    (∀ i, c_notifly.notifly_remove_observer (some none) i =
      (-1, some none, [])) ∧
    (∀ n, c_notifly.notifly_remove_all_observers none n = (-1, none, [])) ∧
    (∀ n, c_notifly.notifly_remove_all_observers (some none) n =
      (-1, some none, [])) ∧
    (∀ n cb ud, notifly_c.notifly_add_observer none n cb ud =
      (NOTIFLY_INVALID_HANDLE, none, [])) ∧
    (∀ h n ud, notifly_c.notifly_add_observer h n none ud =
      (NOTIFLY_INVALID_HANDLE, h, [])) ∧
    (∀ i, notifly_c.notifly_remove_observer none i =
      (NOTIFLY_INVALID_HANDLE, none, [])) ∧
    (∀ n, notifly_c.notifly_remove_all_observers none n =
      (NOTIFLY_INVALID_HANDLE, none, [])) ∧
    (∀ n p, notifly_c.notifly_post_notification none n p =
      (NOTIFLY_INVALID_HANDLE, none, [])) ∧
    (∀ n p, notifly_c.notifly_post_notification_async none n p =
      (NOTIFLY_INVALID_HANDLE, none, [])) ∧
    (∀ p w t d r, notifly_c.notifly_post_and_wait none true p w t d r =
      (NOTIFLY_INVALID_HANDLE, none, none, [])) ∧
    (∀ h p w t d r, notifly_c.notifly_post_and_wait h false p w t d r =
      (NOTIFLY_INVALID_HANDLE, none, h, [])) := by
  refine ⟨fun n cb => rfl, fun n cb => rfl, ?_, fun n p => rfl, fun n p => rfl,
    fun n p => rfl, fun n p => rfl, fun i => rfl, fun i => rfl, fun n => rfl,
    fun n => rfl, fun n cb ud => rfl, ?_, fun i => rfl, fun n => rfl,
    fun n p => rfl, fun n p => rfl, fun p w t d r => rfl, ?_⟩
  · intro h n
    rcases h with _ | (_ | s) <;> rfl
  · intro h n ud
    rcases h with _ | s <;> rfl
  · intro h p w t d r
    rcases h with _ | s <;> rfl

end Notifly
